import Mathlib

/-!
Verification of the Activision-status polling/caching/diff/filter engine of
the `codstatus` cog (files `codstatus/activision_api.py`,
`codstatus/codstatus.py`, `codstatus/regex_utils.py`).

The Python code is shallowly embedded: pure helpers become Lean functions,
the stateful polling tick becomes a function from (fetch result, last-known
issue set) to (new last-known set, emitted notification), and the cache-save
side effect becomes an explicit list of filesystem operations with a small
filesystem semantics.  Python's `re` engine is modelled by a Brzozowski
derivative matcher over the fragment of regex syntax the cog's filters use
(literal characters, `.`, `*`, grouping parentheses); patterns outside this
fragment are treated as failing to compile.  Python `re` flag constants are
modelled by their numeric values (IGNORECASE = 2, MULTILINE = 8,
DOTALL = 16, UNICODE = 32, VERBOSE = 64).
-/

/-! ## Regex engine (model of the Python `re` fragment used by the filters) -/

/-- Model of Python `re` flag constant `re.IGNORECASE`. -/
def reIGNORECASE : Nat := 2

/-- Model of Python `re` flag constant `re.MULTILINE`. -/
def reMULTILINE : Nat := 8

/-- Model of Python `re` flag constant `re.DOTALL`. -/
def reDOTALL : Nat := 16

/-- Model of Python `re` flag constant `re.UNICODE`. -/
def reUNICODE : Nat := 32

/-- Model of Python `re` flag constant `re.VERBOSE`. -/
def reVERBOSE : Nat := 64

/-- Regex abstract syntax for the modelled fragment.  `alt` and `fail` are
needed internally by the derivative matcher even though the surface parser
of this fragment only produces `eps`, `char`, `dot`, `seq`, `star`. -/
inductive Regex where
  | fail : Regex
  | eps : Regex
  | char : Char → Regex
  | dot : Regex
  | seq : Regex → Regex → Regex
  | alt : Regex → Regex → Regex
  | star : Regex → Regex
deriving Repr, DecidableEq

/-- Whether a flag bit is set in a flag word. -/
def flagSet (flags bit : Nat) : Bool := flags &&& bit != 0

/-- A literal pattern character matches an input character; under
`re.IGNORECASE` the comparison is case-folded. -/
def charMatches (flags : Nat) (p x : Char) : Bool :=
  if flagSet flags reIGNORECASE then p.toLower == x.toLower else p == x

/-- `.` matches any character except newline, unless `re.DOTALL` is set. -/
def dotMatches (flags : Nat) (x : Char) : Bool :=
  if flagSet flags reDOTALL then true else x != '\n'

/-- Nullability: whether the regex accepts the empty string. -/
def Regex.nullable : Regex → Bool
  | .fail => false
  | .eps => true
  | .char _ => false
  | .dot => false
  | .seq a b => a.nullable && b.nullable
  | .alt a b => a.nullable || b.nullable
  | .star _ => true

/-- Brzozowski derivative of a regex with respect to one input character. -/
def Regex.deriv (flags : Nat) : Regex → Char → Regex
  | .fail, _ => .fail
  | .eps, _ => .fail
  | .char c, x => if charMatches flags c x then .eps else .fail
  | .dot, x => if dotMatches flags x then .eps else .fail
  | .seq a b, x =>
      if a.nullable then .alt (.seq (a.deriv flags x) b) (b.deriv flags x)
      else .seq (a.deriv flags x) b
  | .alt a b, x => .alt (a.deriv flags x) (b.deriv flags x)
  | .star a, x => .seq (a.deriv flags x) (.star a)

/-- Whether the regex matches the whole character list. -/
def Regex.matchFull (flags : Nat) (r : Regex) (s : List Char) : Bool :=
  (s.foldl (Regex.deriv flags) r).nullable

/-- Whether the regex matches some initial segment of the character list. -/
def Regex.matchPre (flags : Nat) : Regex → List Char → Bool
  | r, [] => r.nullable
  | r, c :: cs => r.nullable || Regex.matchPre flags (r.deriv flags c) cs

/-- Model of Python `pattern.search(s)`: the regex matches a substring
starting at some position of the input. -/
def Regex.reSearch (flags : Nat) : Regex → List Char → Bool
  | r, [] => Regex.matchPre flags r []
  | r, c :: cs => Regex.matchPre flags r (c :: cs) || Regex.reSearch flags r cs

/-- Characters the modelled fragment treats as metacharacters.  A pattern
containing an unsupported metacharacter fails to compile in the model
(Python supports more syntax; the model is faithful on the fragment). -/
def regexMeta : List Char :=
  ['(', ')', '*', '.', '+', '?', '[', ']', '\\', Char.ofNat 123, Char.ofNat 125, '|', '^', '$']

/-- Fuel-bounded recursive-descent parse of the fragment: a sequence of
atoms, each optionally starred; an atom is a parenthesised group, `.`, or a
literal character.  Returns the parsed regex and the unconsumed input
(which begins with `)` or is empty). -/
def parseAtoms : Nat → Regex → List Char → Option (Regex × List Char)
  | 0, _, _ => none
  | _ + 1, acc, [] => some (acc, [])
  | fuel + 1, acc, c :: cs =>
    if c = ')' then some (acc, c :: cs)
    else
      let atom : Option (Regex × List Char) :=
        if c = '(' then
          match parseAtoms fuel .eps cs with
          | some (r, ')' :: rest) => some (r, rest)
          | _ => none
        else if c = '.' then some (.dot, cs)
        else if regexMeta.contains c then none
        else some (.char c, cs)
      match atom with
      | none => none
      | some (r, rest) =>
        match rest with
        | '*' :: rest2 => parseAtoms fuel (.seq acc (.star r)) rest2
        | _ => parseAtoms fuel (.seq acc r) rest

/-- Parse a whole pattern string of the fragment to a regex. -/
def parseRegex (cs : List Char) : Option Regex :=
  match parseAtoms (2 * cs.length + 2) .eps cs with
  | some (r, []) => some r
  | _ => none

/-! ## `RegexParser.parse_flags` (from `codstatus/regex_utils.py`) -/

/-- Index of the last occurrence of a character in a list (`str.rindex`). -/
def rindexOf (cs : List Char) (c : Char) : Option Nat :=
  match cs with
  | [] => none
  | x :: xs =>
    match rindexOf xs c with
    | some i => some (i + 1)
    | none => if x = c then some 0 else none

/-- The flag characters accepted by `parse_flags` (`'igmsuvx'`). -/
def flagChars : List Char := ['i', 'g', 'm', 's', 'u', 'v', 'x']

/-- Translate the accepted flag characters to the numeric flag word exactly
as the chain of `flags |= re....` statements does; `g` contributes nothing
and `v`/`x` both map to `re.VERBOSE`. -/
def flagsOf (pf : List Char) : Nat :=
  (if pf.contains 'i' then reIGNORECASE else 0) |||
  (if pf.contains 'm' then reMULTILINE else 0) |||
  (if pf.contains 's' then reDOTALL else 0) |||
  (if pf.contains 'u' then reUNICODE else 0) |||
  (if pf.contains 'v' then reVERBOSE else 0) |||
  (if pf.contains 'x' then reVERBOSE else 0)

/-- Embedding of `RegexParser.parse_flags`: if the pattern contains a `/`
whose last occurrence is at index `> 0` and the text after it is nonempty
and, lowercased, consists solely of `flagChars`, strip it and build the
flag word; otherwise return the original pattern with flags 0. -/
def parse_flags (pattern : String) : String × Nat :=
  match rindexOf pattern.data '/' with
  | none => (pattern, 0)
  | some i =>
    if i > 0 then
      let before := pattern.data.take i
      let after := pattern.data.drop (i + 1)
      if after ≠ [] then
        let pf := after.map Char.toLower
        if pf.all (fun c => flagChars.contains c) then
          (String.mk before, flagsOf pf)
        else (pattern, 0)
      else (pattern, 0)
    else (pattern, 0)

/-- Embedding of `RegexParser.compile_pattern`: parse flags, then compile
the clean pattern; `none` models `re.error`. -/
def compile_pattern (pattern : String) : Option (Regex × Nat) :=
  let pf := parse_flags pattern
  match parseRegex pf.1.data with
  | some r => some (r, pf.2)
  | none => none

/-- Embedding of `RegexParser.validate_pattern`'s boolean component. -/
def validate_pattern (pattern : String) : Bool :=
  (compile_pattern pattern).isSome

/-- `compiled.search(title)` on a compiled (regex, flags) pair. -/
def searchPat (p : Regex × Nat) (s : String) : Bool :=
  Regex.reSearch p.2 p.1 s.data

/-! ## Status snapshot model (from `codstatus/activision_api.py`) -/

/-- One entry of the payload's `serverStatuses` list.  `.get("gameTitle")`
returning a missing key or an empty string are both falsy in Python and are
collapsed to `""` here, which is faithful to every use in the code (each
read either defaults to `""` or tests truthiness). -/
structure ServerStatus where
  gameTitle : String
  platform : String
deriving Repr, DecidableEq

/-- The decoded JSON payload, restricted to the fields the cog reads.
`recentlyResolvedNames` abstracts the service names appearing in the
payload's `recentlyResolved` historical data (whose internal shape the code
never inspects). -/
structure Payload where
  serverStatuses : List ServerStatus
  recentlyResolvedNames : List String
deriving Repr, DecidableEq

/-- Embedding of `ActivisionStatus.get_games_with_issues`: the set of
`(gameTitle, platform)` pairs of entries having both fields truthy. -/
def get_games_with_issues (p : Payload) : Finset (String × String) :=
  ((p.serverStatuses.filter (fun s => s.gameTitle ≠ "" ∧ s.platform ≠ "")).map
    (fun s => (s.gameTitle, s.platform))).toFinset

/-- Embedding of `ActivisionStatus.get_all_games`: the set of truthy
`gameTitle` values of the `serverStatuses` entries. -/
def get_all_games (p : Payload) : Finset String :=
  ((p.serverStatuses.filter (fun s => s.gameTitle ≠ "")).map
    (fun s => s.gameTitle)).toFinset

/-! ## Cache-aware fetch (from `ActivisionStatus.fetch_status`) -/

/-- The decoded cache file as `fetch_status` sees it after `_load_cache`:
`timestamp` is the parsed `_cache_timestamp` field (`none` when the field is
missing, falsy, or `datetime.fromisoformat` raises), and `data` is the
`data` field (`none` when missing).  A missing, corrupt, or falsy cache
file altogether is `Option (CacheFile α) = none` at the call site. -/
structure CacheFile (α : Type) where
  timestamp : Option Int
  data : Option α
deriving Repr, DecidableEq

/-- Embedding of `ActivisionStatus.fetch_status`.  Time is passed
explicitly (`now`), and the network is modelled by the result `network`
that `_fetch_with_session` would produce (`none` for timeout, transport
error, non-200 or malformed body).  Returns the fetched data together with
a flag recording whether the network fetch was performed.  The cache-save
side effect on a successful network fetch is modelled separately by
`save_cache_ops`. -/
def fetch_status (forceRefresh : Bool) (cache : Option (CacheFile α))
    (now cacheAge : Int) (network : Option α) : Option α × Bool :=
  if forceRefresh then (network, true)
  else
    match cache with
    | none => (network, true)
    | some c =>
      match c.timestamp with
      | none => (network, true)
      | some ts =>
        if now - ts < cacheAge then (c.data, false)
        else (network, true)

/-! ## Filter engine (from `ActivisionStatusCog._filter_issues_by_games`) -/

/-- Embedding of `ActivisionStatusCog._filter_issues_by_games`: an empty
rule list passes every issue; otherwise the rules that compile are kept
(invalid ones are skipped with a logged warning); if none compile the
result is the empty set; otherwise an issue is kept when its game title
search-matches any compiled pattern (the inner loop breaks at the first
match, which `List.any` mirrors). -/
def filter_issues_by_games (issues : Finset (String × String))
    (filter_patterns : List String) : Finset (String × String) :=
  if filter_patterns = [] then issues
  else
    let compiled := filter_patterns.filterMap compile_pattern
    if compiled = [] then ∅
    else issues.filter (fun gp => compiled.any (fun p => searchPat p gp.1))

/-! ## Polling scheduler (from `ActivisionStatusCog.status_check_loop`) -/

/-- Embedding of one tick of `status_check_loop` as a pure transition.
Input: the result of `fetch_status` and the current
`_last_known_statuses`.  Output: the new `_last_known_statuses` and the
notification batch passed to `_post_status_updates` (`none` when nothing is
posted).  The Python body is wrapped in `try/except`, and every failure
mode of the fetch surfaces as `data = none`, so the transition is total:
no exception escapes a tick. -/
def status_check_tick (data : Option Payload)
    (lastKnown : Finset (String × String)) :
    Finset (String × String) ×
      Option (Finset (String × String) × Finset (String × String)) :=
  match data with
  | none => (lastKnown, none)
  | some d =>
    let current := get_games_with_issues d
    let newIssues := current \ lastKnown
    let resolvedIssues := lastKnown \ current
    (current,
      if newIssues ≠ ∅ ∨ resolvedIssues ≠ ∅ then some (newIssues, resolvedIssues)
      else none)

/-- Embedding of `before_status_check_loop` (the Seeding phase): one fetch;
on success `_last_known_statuses` is set to the snapshot's issue set; no
notification is ever posted from this phase. -/
def before_loop_seed (data : Option Payload)
    (lastKnown : Finset (String × String)) :
    Finset (String × String) ×
      Option (Finset (String × String) × Finset (String × String)) :=
  match data with
  | none => (lastKnown, none)
  | some d => (get_games_with_issues d, none)

/-- The diff computed inline at the top of each tick (`current_statuses -
self._last_known_statuses` and the converse): `(added, removed)`. -/
def diffIssues (previous current : Finset (String × String)) :
    Finset (String × String) × Finset (String × String) :=
  (current \ previous, previous \ current)

/-! ## Cache save (from `ActivisionStatus._save_cache`) -/

/-- A filesystem state: the set of directories that exist and an
association list from path to file contents (first match wins). -/
structure FileSys where
  dirs : List String
  files : List (String × String)
deriving Repr, DecidableEq

/-- Content of a file, `none` when absent. -/
def FileSys.getFile (fs : FileSys) (path : String) : Option String :=
  fs.files.lookup path

/-- The filesystem operations `_save_cache` can perform.  `truncateOpen`
models `path.open("w")`, which truncates the file to empty on open;
`writeContent` models the subsequent `json.dump` writing the full
serialization; `renameTo` models an `os.rename`-style atomic install
(present in the vocabulary so that the atomic-write property is statable,
though `_save_cache` never performs it). -/
inductive FsOp where
  | mkdirParents : String → FsOp
  | truncateOpen : String → FsOp
  | writeContent : String → String → FsOp
  | renameTo : String → String → FsOp
deriving Repr, DecidableEq

/-- Effect of one filesystem operation. -/
def applyOp (fs : FileSys) : FsOp → FileSys
  | .mkdirParents d => { fs with dirs := d :: fs.dirs }
  | .truncateOpen f => { fs with files := (f, "") :: fs.files }
  | .writeContent f c => { fs with files := (f, c) :: fs.files }
  | .renameTo src dst =>
    match fs.files.lookup src with
    | some c => { fs with files := (dst, c) :: fs.files }
    | none => fs

/-- Run a list of filesystem operations in order. -/
def runOps (fs : FileSys) (ops : List FsOp) : FileSys := ops.foldl applyOp fs

/-- The serialized cache record `{"_cache_timestamp": ..., "data": ...}`
that `_save_cache` builds and `json.dump` writes. -/
def recordJson (ts dataJson : String) : String :=
  "\x7b\"_cache_timestamp\": \"" ++ ts ++ "\", \"data\": " ++ dataJson ++ "\x7d"

/-- Embedding of `ActivisionStatus._save_cache` as the sequence of
filesystem operations it performs: create the parent directory, open the
cache file itself with mode `"w"` (truncating it), then write the
serialized record.  No temporary file and no rename are involved. -/
def save_cache_ops (parentDir cacheFile ts dataJson : String) : List FsOp :=
  [.mkdirParents parentDir, .truncateOpen cacheFile,
   .writeContent cacheFile (recordJson ts dataJson)]

/-- The claim's crash-safety property, in the spec's words: however the
operation sequence is cut short (a crash after any prefix), the cache file
holds either its previous content or the complete new record — a
previously valid cache file is never corrupted mid-write. -/
def crashSafe (ops : List FsOp) (finalPath newContent : String) : Prop :=
  ∀ fs : FileSys, ∀ n : Nat,
    (runOps fs (ops.take n)).getFile finalPath = fs.getFile finalPath ∨
    (runOps fs (ops.take n)).getFile finalPath = some newContent

/-! ## Game listing (from `ActivisionStatusCog.list_games`) -/

/-- Embedding of the set of game titles the `games` command assembles: it
starts from `get_all_games`, reads `recentlyResolved` into a local that it
never uses, and then re-adds the truthy `gameTitle` of each
`serverStatuses` entry. -/
def list_games_all_games (p : Payload) : Finset String :=
  let current := get_all_games p
  let fromStatuses :=
    ((p.serverStatuses.filter (fun s => s.gameTitle ≠ "")).map
      (fun s => s.gameTitle)).toFinset
  current ∪ fromStatuses

/-- Modelled from the spec: `allServiceNames(payload)` is the union of the
names in the current issues and the names in the payload's historical
`recentlyResolved` data when present. -/
def allServiceNamesSpec (p : Payload) : Finset String :=
  get_all_games p ∪ p.recentlyResolvedNames.toFinset

/-! ## Spec-side view of flag parsing (for the amended C6) -/

/-- Split a character list at its LAST slash: `some (before, after)` with
`cs = before ++ slash :: after` when a slash occurs, `none` otherwise.
`after` is the claim's "trailing segment after the last slash". -/
def revSplitSlash : List Char → Option (List Char × List Char)
  | [] => none
  | c :: cs =>
    match revSplitSlash cs with
    | some (b, a) => some (c :: b, a)
    | none => if c = '/' then some ([], cs) else none

/-- Modelled from the spec as amended: flags are parsed exactly when the
text before the last slash is nonempty, the trailing segment is nonempty
and, lowercased, consists solely of the flag alphabet (so flag letters are
recognised case-insensitively); otherwise the original pattern is kept with
zero flags. -/
def parse_flags_amended (pattern : String) : String × Nat :=
  match revSplitSlash pattern.data with
  | none => (pattern, 0)
  | some (before, after) =>
    let lowered := after.map Char.toLower
    if before ≠ [] ∧ after ≠ [] ∧ lowered.all (fun c => flagChars.contains c)
    then (String.mk before, flagsOf lowered)
    else (pattern, 0)

theorem revSplitSlash_eq_none (cs : List Char) (h : revSplitSlash cs = none) :
    rindexOf cs '/' = none := by
  induction cs with
  | nil => rfl
  | cons c cs ih =>
    unfold revSplitSlash at h
    unfold rindexOf
    cases hs : revSplitSlash cs with
    | some ba => rw [hs] at h; exact absurd h (by simp)
    | none =>
      rw [hs] at h
      rw [ih hs]
      by_cases hc : c = '/'
      · rw [if_pos hc] at h; exact absurd h (by simp)
      · simp [hc]

theorem revSplitSlash_eq_some (cs b a : List Char)
    (h : revSplitSlash cs = some (b, a)) :
    rindexOf cs '/' = some b.length ∧ b = cs.take b.length ∧
      a = cs.drop (b.length + 1) := by
  induction cs generalizing b a with
  | nil => exact absurd h (by simp [revSplitSlash])
  | cons c cs ih =>
    unfold revSplitSlash at h
    unfold rindexOf
    cases hs : revSplitSlash cs with
    | some ba =>
      obtain ⟨b0, a0⟩ := ba
      rw [hs] at h
      obtain ⟨h1, h2, h3⟩ := ih b0 a0 hs
      simp only [Option.some.injEq, Prod.mk.injEq] at h
      obtain ⟨hb, ha⟩ := h
      subst hb; subst ha
      rw [h1]
      refine ⟨rfl, ?_, ?_⟩
      · simpa using h2
      · simpa using h3
    | none =>
      rw [hs] at h
      rw [revSplitSlash_eq_none cs hs]
      by_cases hc : c = '/'
      · rw [if_pos hc] at h
        simp only [Option.some.injEq, Prod.mk.injEq] at h
        obtain ⟨hb, ha⟩ := h
        subst hb; subst ha
        simp [hc]
      · rw [if_neg hc] at h
        exact absurd h (by simp)

/-! ## Claim theorems -/

/-- C1: With `force_refresh = false`, a cache record whose parsed timestamp
gives an age strictly below `cache_age` makes `fetch_status` return the
cached snapshot without performing the network fetch; a record at least
`cache_age` old, a record with no parseable timestamp, and a missing cache
all lead to the network fetch being performed. -/
theorem fetch_status_cache_policy {α : Type} (c : CacheFile α)
    (ts now cacheAge : Int) (network : Option α) :
    (c.timestamp = some ts → now - ts < cacheAge →
      fetch_status false (some c) now cacheAge network = (c.data, false)) ∧
    (c.timestamp = some ts → cacheAge ≤ now - ts →
      fetch_status false (some c) now cacheAge network = (network, true)) ∧
    (c.timestamp = none →
      fetch_status false (some c) now cacheAge network = (network, true)) ∧
    fetch_status false (none : Option (CacheFile α)) now cacheAge network
      = (network, true) := by
  refine ⟨?_, ?_, ?_, rfl⟩
  · intro hts hfresh
    simp [fetch_status, hts, hfresh]
  · intro hts hstale
    have : ¬ (now - ts < cacheAge) := by omega
    simp [fetch_status, hts, this]
  · intro hts
    simp [fetch_status, hts]

theorem fetch_status_cache_policy_witness :
    fetch_status false (some (⟨some 0, some 42⟩ : CacheFile Nat)) 10 300 (some 7)
        = (some 42, false) ∧
    fetch_status false (some (⟨some 0, some 42⟩ : CacheFile Nat)) 400 300 (some 7)
        = (some 7, true) :=
  ⟨(fetch_status_cache_policy ⟨some 0, some 42⟩ 0 10 300 (some 7)).1 rfl (by decide),
   (fetch_status_cache_policy ⟨some 0, some 42⟩ 0 400 300 (some 7)).2.1 rfl (by decide)⟩

/-- C2: A polling tick whose fetch returns an absent result leaves
`_last_known_statuses` unchanged and posts no notification; the transition
is a total function, so no exception propagates out of the tick. -/
theorem tick_fetch_failure_preserves_state
    (lastKnown : Finset (String × String)) :
    status_check_tick none lastKnown = (lastKnown, none) := rfl

/-- C3: The Seeding phase (`before_status_check_loop`) on its first
successful fetch sets the last-known set to the snapshot's issue set and
emits no notification, for every snapshot — including ones that contain
issues. -/
theorem seeding_sets_state_without_notifying (d : Payload)
    (lastKnown : Finset (String × String)) :
    before_loop_seed (some d) lastKnown = (get_games_with_issues d, none) := rfl

/-- C7: Diff symmetry — the added component of `diffIssues A B` is the
removed component of `diffIssues B A`, and conversely, for all pairs of
issue sets under `(name, platform)` set equality. -/
theorem diff_symmetry (A B : Finset (String × String)) :
    (diffIssues A B).1 = (diffIssues B A).2 ∧
    (diffIssues A B).2 = (diffIssues B A).1 :=
  ⟨rfl, rfl⟩

/-- C9: Evaluation of the `games` listing at a payload with no current
issues and one recently-resolved service: the code's set is empty because
the `recently_resolved` local is read but never used, while the claimed
union of current-issue names and recently-resolved names is nonempty. -/
theorem list_games_ignores_recently_resolved :
    list_games_all_games ⟨[], ["Warzone"]⟩ = ∅ ∧
    allServiceNamesSpec ⟨[], ["Warzone"]⟩ = {"Warzone"} := by
  constructor
  · decide
  · decide

/-- C10: The per-destination filter only ever removes issues: for every
issue set and every pattern list (valid, invalid or empty), the result is a
subset of the input set. -/
theorem filter_result_subset (issues : Finset (String × String))
    (rules : List String) :
    filter_issues_by_games issues rules ⊆ issues := by
  unfold filter_issues_by_games
  by_cases h1 : rules = []
  · simp [h1]
  · rw [if_neg h1]
    by_cases h2 : rules.filterMap compile_pattern = []
    · simp [h2]
    · simp only [h2, if_neg, if_false]
      exact Finset.filter_subset _ _

/-- C4: An empty rule list passes every issue; a nonempty rule list passes
an issue exactly when its game title search-matches (substring semantics,
`pattern.search`) at least one rule that compiles — `List.any` over the
compiled rules mirrors the source's first-match `break`.  Case-insensitive
matching under the `/i` flag is exercised by the witness. -/
theorem filter_passes_iff_some_rule_matches
    (issues : Finset (String × String)) (rules : List String)
    (x : String × String) (hx : x ∈ issues) :
    (rules = [] → x ∈ filter_issues_by_games issues rules) ∧
    (rules ≠ [] →
      (x ∈ filter_issues_by_games issues rules ↔
        (rules.filterMap compile_pattern).any (fun p => searchPat p x.1) = true)) := by
  constructor
  · intro h
    simp [filter_issues_by_games, h, hx]
  · intro h
    unfold filter_issues_by_games
    rw [if_neg h]
    by_cases h2 : rules.filterMap compile_pattern = []
    · simp [h2]
    · simp only [h2, if_neg, if_false]
      simp [Finset.mem_filter, hx]

theorem filter_passes_iff_some_rule_matches_witness :
    ("Foo Game", "PC") ∈
      filter_issues_by_games {("Foo Game", "PC")} ["foo/i"] ∧
    ("XFooY", "PS4") ∈
      filter_issues_by_games {("XFooY", "PS4")} ["Foo"] :=
  ⟨((filter_passes_iff_some_rule_matches {("Foo Game", "PC")} ["foo/i"]
      ("Foo Game", "PC") (by decide)).2 (by decide)).mpr (by decide),
   ((filter_passes_iff_some_rule_matches {("XFooY", "PS4")} ["Foo"]
      ("XFooY", "PS4") (by decide)).2 (by decide)).mpr (by decide)⟩

/-- C5: With a nonempty rule list, rules that fail to compile are simply
dropped — the result depends only on the rules that do compile — and when
every rule fails to compile the destination gets the empty set
(fail-closed), not the unfiltered input. -/
theorem filter_invalid_rules_skipped_fail_closed
    (issues : Finset (String × String)) (rules : List String)
    (hne : rules ≠ []) :
    (filter_issues_by_games issues rules =
      if rules.filterMap compile_pattern = [] then ∅
      else issues.filter
        (fun gp => (rules.filterMap compile_pattern).any
          (fun p => searchPat p gp.1))) ∧
    ((∀ p ∈ rules, compile_pattern p = none) →
      filter_issues_by_games issues rules = ∅) := by
  constructor
  · unfold filter_issues_by_games
    rw [if_neg hne]
  · intro hall
    have h2 : rules.filterMap compile_pattern = [] := by
      rw [List.filterMap_eq_nil_iff]
      exact hall
    unfold filter_issues_by_games
    rw [if_neg hne]
    simp [h2]

theorem filter_invalid_rules_skipped_fail_closed_witness :
    filter_issues_by_games {("Game A", "PC"), ("Game B", "PS4")} ["("] = ∅ :=
  (filter_invalid_rules_skipped_fail_closed
      {("Game A", "PC"), ("Game B", "PS4")} ["("] (by decide)).2 (by decide)

/-- C6 counterexample: the claim fails on the code at two concrete inputs.
At `"/i"` the trailing segment after the last slash is `"i"` — nonempty and
made only of flag characters — so the claim requires stripping it and
returning `("", re.IGNORECASE)`, but `parse_flags` (whose guard requires
the last slash at index `> 0`) returns the whole string with zero flags.
At `"A/I"` the trailing segment `"I"` contains a character outside
`{i,g,m,s,u,v,x}`, so the claim requires the full original string with zero
flags, but `parse_flags` lowercases the segment first and returns
`("A", re.IGNORECASE)`. -/
theorem parse_flags_claim_counterexample :
    revSplitSlash "/i".data = some ([], ['i']) ∧
    (['i'].all (fun c => flagChars.contains c)) = true ∧
    parse_flags "/i" = ("/i", 0) ∧
    parse_flags "/i" ≠ ("", reIGNORECASE) ∧
    revSplitSlash "A/I".data = some (['A'], ['I']) ∧
    flagChars.contains 'I' = false ∧
    parse_flags "A/I" = ("A", reIGNORECASE) ∧
    parse_flags "A/I" ≠ ("A/I", 0) := by
  refine ⟨by decide, by decide, by decide, by decide,
          by decide, by decide, by decide, by decide⟩

/-- C6 (amended): `parse_flags` strips and interprets the trailing segment
after the last slash exactly when the text before that slash is nonempty,
the segment is nonempty and, after lowercasing, consists solely of
`{i,g,m,s,u,v,x}` (so flag letters are recognised case-insensitively, with
`i` = IGNORECASE, `m` = MULTILINE, `s` = DOTALL, `u` = UNICODE, `v`/`x` =
VERBOSE, `g` ignored); in every other case it returns the full original
string with zero flags. -/
theorem parse_flags_matches_amended_spec (p : String) :
    parse_flags p = parse_flags_amended p := by
  unfold parse_flags parse_flags_amended
  cases hsplit : revSplitSlash p.data with
  | none => rw [revSplitSlash_eq_none p.data hsplit]
  | some ba =>
    obtain ⟨b, a⟩ := ba
    obtain ⟨h1, h2, h3⟩ := revSplitSlash_eq_some p.data b a hsplit
    rw [h1]
    dsimp only
    by_cases hb : b = []
    · subst hb
      simp
    · have hlen : 0 < b.length := List.length_pos.mpr hb
      rw [← h2, ← h3]
      by_cases ha : a = []
      · simp [ha, hlen]
      · by_cases hall :
          (a.map Char.toLower).all (fun c => flagChars.contains c) = true
        · simp [ha, hb, hall, hlen]
        · simp [ha, hb, hall, hlen]

/-- C8 counterexample: `_save_cache` opens the cache file itself in
truncate mode and then writes, with no temporary file and no rename, so a
crash between the truncating open and the write (here: after the first two
of its three filesystem operations) leaves a previously valid cache file
empty — neither its old content nor the new record.  This refutes the
claimed atomic write-then-rename discipline. -/
theorem save_cache_not_crash_safe :
    ¬ crashSafe (save_cache_ops "cogdir" "cogdir/status_cache.json" "t0" "1")
        "cogdir/status_cache.json" (recordJson "t0" "1") := by
  intro h
  exact absurd
    (h ⟨[], [("cogdir/status_cache.json", "old valid record")]⟩ 2)
    (by decide)

/-- C8 (amended): every cache save serializes the record
`{_cache_timestamp: now, data: snapshot}`, creates the parent directory,
and writes the record directly into the cache file by a truncating open
followed by a write — a non-atomic in-place overwrite, so only the final
state (not every crash prefix) is guaranteed to hold the full record. -/
theorem save_cache_amended_behavior (fs : FileSys)
    (parentDir cacheFile ts dataJson : String) :
    (runOps fs (save_cache_ops parentDir cacheFile ts dataJson)).getFile
        cacheFile = some (recordJson ts dataJson) ∧
    parentDir ∈
      (runOps fs (save_cache_ops parentDir cacheFile ts dataJson)).dirs := by
  constructor
  · simp [runOps, save_cache_ops, applyOp, FileSys.getFile, List.lookup]
  · simp [runOps, save_cache_ops, applyOp]
